import Mathlib

/-!
Shallow embedding of the `emulator-hal` and `emulator-hal-memory` crates.

Machine integers are modelled as `Nat` with explicit `% 2^w` where overflow
matters.  Byte buffers are `List Nat` (each element a byte value).  Fallible
Rust code returns `Except`; a Rust panic (slice index out of range, integer
division by zero) is modelled as the `none` case of an outer `Option`.
A `read` takes the caller's buffer as input (its length is the requested
count) and returns the buffer contents after the call, mirroring in-place
mutation of `&mut [u8]`.
-/

namespace Emu

/-- SimpleBusError from `emulator-hal/src/bus.rs`.  The `Other` variant boxes
an arbitrary nested error in the source; the payload is not inspected by any
code modelled here, so it is omitted. -/
inductive SimpleBusError where
  | ReadOnly
  | UnmappedAddress
  | Other
deriving DecidableEq, Repr

/-- ByteOrder from `emulator-hal/src/bus.rs`. -/
inductive ByteOrder where
  | Little
  | Big
deriving DecidableEq, Repr

/-- Little-endian byte decomposition: `toLeBytes n v` is the list of `n`
bytes of `v`, least significant first (`v.to_le_bytes()` for an `n`-byte
integer). -/
def toLeBytes : Nat → Nat → List Nat
  | 0, _ => []
  | n + 1, v => v % 256 :: toLeBytes n (v / 256)

/-- Big-endian byte decomposition (`v.to_be_bytes()`): most significant
byte first. -/
def toBeBytes (n v : Nat) : List Nat :=
  (toLeBytes n v).reverse

/-- `uN::from_le_bytes`: assemble a value from bytes, least significant
first. -/
def fromLeBytes : List Nat → Nat
  | [] => 0
  | b :: rest => b + 256 * fromLeBytes rest

/-- `uN::from_be_bytes`: assemble a value from bytes, most significant
first. -/
def fromBeBytes (l : List Nat) : Nat :=
  fromLeBytes l.reverse

/-- Overwrite `d.length` bytes of `c` starting at index `i`
(`c[i..i + d.len()].copy_from_slice(d)`). -/
def listWrite (c : List Nat) (i : Nat) (d : List Nat) : List Nat :=
  c.take i ++ d ++ c.drop (i + d.length)

/-- Read `n` bytes of `c` starting at index `i` (`&c[i..i + n]`). -/
def readBytes (c : List Nat) (i n : Nat) : List Nat :=
  (c.drop i).take n

/-- The `BusAccess` capability from `emulator-hal/src/bus.rs`, restricted to
its two required methods.  `read s now addr data` returns the new device
state, the buffer contents after the call, and the transferred-byte count;
`write s now addr data` returns the new state and the count.  `none` is a
panic. -/
structure BusOps (σ Addr ι ε : Type) where
  read : σ → ι → Addr → List Nat → Option (Except ε (σ × List Nat × Nat))
  write : σ → ι → Addr → List Nat → Option (Except ε (σ × Nat))

/-- `BusAccess::read_u8`: a 1-byte zeroed stack buffer is passed to the raw
primitive and `data[0]` is returned; the transferred count is discarded. -/
def readU8 {σ Addr ι ε : Type} (B : BusOps σ Addr ι ε) (s : σ) (now : ι) (addr : Addr) :
    Option (Except ε (σ × Nat)) :=
  match B.read s now addr (List.replicate 1 0) with
  | none => none
  | some (.error e) => some (.error e)
  | some (.ok (s', buf, _)) => some (.ok (s', buf.getD 0 0))

/-- `BusAccess::read_beu16`. -/
def readBeu16 {σ Addr ι ε : Type} (B : BusOps σ Addr ι ε) (s : σ) (now : ι) (addr : Addr) :
    Option (Except ε (σ × Nat)) :=
  match B.read s now addr (List.replicate 2 0) with
  | none => none
  | some (.error e) => some (.error e)
  | some (.ok (s', buf, _)) => some (.ok (s', fromBeBytes buf))

/-- `BusAccess::read_leu16`. -/
def readLeu16 {σ Addr ι ε : Type} (B : BusOps σ Addr ι ε) (s : σ) (now : ι) (addr : Addr) :
    Option (Except ε (σ × Nat)) :=
  match B.read s now addr (List.replicate 2 0) with
  | none => none
  | some (.error e) => some (.error e)
  | some (.ok (s', buf, _)) => some (.ok (s', fromLeBytes buf))

/-- `BusAccess::read_u16`: dispatch on the byte order. -/
def readU16 {σ Addr ι ε : Type} (B : BusOps σ Addr ι ε) (order : ByteOrder) (s : σ) (now : ι)
    (addr : Addr) : Option (Except ε (σ × Nat)) :=
  match order with
  | .Little => readLeu16 B s now addr
  | .Big => readBeu16 B s now addr

/-- `BusAccess::read_beu32`. -/
def readBeu32 {σ Addr ι ε : Type} (B : BusOps σ Addr ι ε) (s : σ) (now : ι) (addr : Addr) :
    Option (Except ε (σ × Nat)) :=
  match B.read s now addr (List.replicate 4 0) with
  | none => none
  | some (.error e) => some (.error e)
  | some (.ok (s', buf, _)) => some (.ok (s', fromBeBytes buf))

/-- `BusAccess::read_leu32`. -/
def readLeu32 {σ Addr ι ε : Type} (B : BusOps σ Addr ι ε) (s : σ) (now : ι) (addr : Addr) :
    Option (Except ε (σ × Nat)) :=
  match B.read s now addr (List.replicate 4 0) with
  | none => none
  | some (.error e) => some (.error e)
  | some (.ok (s', buf, _)) => some (.ok (s', fromLeBytes buf))

/-- `BusAccess::read_u32`: dispatch on the byte order. -/
def readU32 {σ Addr ι ε : Type} (B : BusOps σ Addr ι ε) (order : ByteOrder) (s : σ) (now : ι)
    (addr : Addr) : Option (Except ε (σ × Nat)) :=
  match order with
  | .Little => readLeu32 B s now addr
  | .Big => readBeu32 B s now addr

/-- `BusAccess::read_beu64`. -/
def readBeu64 {σ Addr ι ε : Type} (B : BusOps σ Addr ι ε) (s : σ) (now : ι) (addr : Addr) :
    Option (Except ε (σ × Nat)) :=
  match B.read s now addr (List.replicate 8 0) with
  | none => none
  | some (.error e) => some (.error e)
  | some (.ok (s', buf, _)) => some (.ok (s', fromBeBytes buf))

/-- `BusAccess::read_leu64`. -/
def readLeu64 {σ Addr ι ε : Type} (B : BusOps σ Addr ι ε) (s : σ) (now : ι) (addr : Addr) :
    Option (Except ε (σ × Nat)) :=
  match B.read s now addr (List.replicate 8 0) with
  | none => none
  | some (.error e) => some (.error e)
  | some (.ok (s', buf, _)) => some (.ok (s', fromLeBytes buf))

/-- `BusAccess::read_u64`: dispatch on the byte order. -/
def readU64 {σ Addr ι ε : Type} (B : BusOps σ Addr ι ε) (order : ByteOrder) (s : σ) (now : ι)
    (addr : Addr) : Option (Except ε (σ × Nat)) :=
  match order with
  | .Little => readLeu64 B s now addr
  | .Big => readBeu64 B s now addr

/-- `BusAccess::write_u8`: the one-byte buffer `[value]` is handed to the raw
primitive; the transferred count is discarded and `Ok(())` is returned as the
new state. -/
def writeU8 {σ Addr ι ε : Type} (B : BusOps σ Addr ι ε) (s : σ) (now : ι) (addr : Addr)
    (value : Nat) : Option (Except ε σ) :=
  match B.write s now addr [value] with
  | none => none
  | some (.error e) => some (.error e)
  | some (.ok (s', _)) => some (.ok s')

/-- `BusAccess::write_beu16`. -/
def writeBeu16 {σ Addr ι ε : Type} (B : BusOps σ Addr ι ε) (s : σ) (now : ι) (addr : Addr)
    (value : Nat) : Option (Except ε σ) :=
  match B.write s now addr (toBeBytes 2 value) with
  | none => none
  | some (.error e) => some (.error e)
  | some (.ok (s', _)) => some (.ok s')

/-- `BusAccess::write_leu16`. -/
def writeLeu16 {σ Addr ι ε : Type} (B : BusOps σ Addr ι ε) (s : σ) (now : ι) (addr : Addr)
    (value : Nat) : Option (Except ε σ) :=
  match B.write s now addr (toLeBytes 2 value) with
  | none => none
  | some (.error e) => some (.error e)
  | some (.ok (s', _)) => some (.ok s')

/-- `BusAccess::write_u16`: dispatch on the byte order. -/
def writeU16 {σ Addr ι ε : Type} (B : BusOps σ Addr ι ε) (order : ByteOrder) (s : σ) (now : ι)
    (addr : Addr) (value : Nat) : Option (Except ε σ) :=
  match order with
  | .Little => writeLeu16 B s now addr value
  | .Big => writeBeu16 B s now addr value

/-- `BusAccess::write_beu32`. -/
def writeBeu32 {σ Addr ι ε : Type} (B : BusOps σ Addr ι ε) (s : σ) (now : ι) (addr : Addr)
    (value : Nat) : Option (Except ε σ) :=
  match B.write s now addr (toBeBytes 4 value) with
  | none => none
  | some (.error e) => some (.error e)
  | some (.ok (s', _)) => some (.ok s')

/-- `BusAccess::write_leu32`. -/
def writeLeu32 {σ Addr ι ε : Type} (B : BusOps σ Addr ι ε) (s : σ) (now : ι) (addr : Addr)
    (value : Nat) : Option (Except ε σ) :=
  match B.write s now addr (toLeBytes 4 value) with
  | none => none
  | some (.error e) => some (.error e)
  | some (.ok (s', _)) => some (.ok s')

/-- `BusAccess::write_u32`: dispatch on the byte order. -/
def writeU32 {σ Addr ι ε : Type} (B : BusOps σ Addr ι ε) (order : ByteOrder) (s : σ) (now : ι)
    (addr : Addr) (value : Nat) : Option (Except ε σ) :=
  match order with
  | .Little => writeLeu32 B s now addr value
  | .Big => writeBeu32 B s now addr value

/-- `BusAccess::write_beu64`. -/
def writeBeu64 {σ Addr ι ε : Type} (B : BusOps σ Addr ι ε) (s : σ) (now : ι) (addr : Addr)
    (value : Nat) : Option (Except ε σ) :=
  match B.write s now addr (toBeBytes 8 value) with
  | none => none
  | some (.error e) => some (.error e)
  | some (.ok (s', _)) => some (.ok s')

/-- `BusAccess::write_leu64`. -/
def writeLeu64 {σ Addr ι ε : Type} (B : BusOps σ Addr ι ε) (s : σ) (now : ι) (addr : Addr)
    (value : Nat) : Option (Except ε σ) :=
  match B.write s now addr (toLeBytes 8 value) with
  | none => none
  | some (.error e) => some (.error e)
  | some (.ok (s', _)) => some (.ok s')

/-- `BusAccess::write_u64`: dispatch on the byte order. -/
def writeU64 {σ Addr ι ε : Type} (B : BusOps σ Addr ι ε) (order : ByteOrder) (s : σ) (now : ι)
    (addr : Addr) (value : Nat) : Option (Except ε σ) :=
  match order with
  | .Little => writeLeu64 B s now addr value
  | .Big => writeBeu64 B s now addr value

/-- MemoryBlock from `emulator-hal-memory/src/lib.rs`: a read-only flag and a
`Vec<u8>` of contents.  The `Address` and `Instant` phantom parameters carry
no data; the fallible `Address -> usize` conversion of the generic bounds is
passed explicitly to each operation as `conv`. -/
structure MemoryBlock where
  read_only : Bool
  contents : List Nat
deriving DecidableEq, Repr

/-- `MemoryBlock::read_only`: set the read-only flag
(the method is named `read_only` in the source, like the field). -/
def MemoryBlock.setReadOnly (m : MemoryBlock) : MemoryBlock :=
  { m with read_only := true }

/-- `MemoryBlock::resize`: `Vec::resize(new_size, 0)` truncates to `new_size`
when shrinking and appends zero bytes when growing. -/
def MemoryBlock.resize (m : MemoryBlock) (new_size : Nat) : MemoryBlock :=
  { m with
    contents :=
      if new_size ≤ m.contents.length then m.contents.take new_size
      else m.contents ++ List.replicate (new_size - m.contents.length) 0 }

/-- `MemoryBlock::read`: the address is converted with the fallible `conv`
(`addr.try_into()`), failure becoming `UnmappedAddress`; then
`data.copy_from_slice(&contents[addr..addr + data.len()])`, which panics
(`none`) when the slice range exceeds the contents. -/
def MemoryBlock.read {Addr ι : Type} (conv : Addr → Option Nat) (m : MemoryBlock) (_now : ι)
    (addr : Addr) (data : List Nat) :
    Option (Except SimpleBusError (MemoryBlock × List Nat × Nat)) :=
  match conv addr with
  | none => some (.error .UnmappedAddress)
  | some i =>
    if i + data.length ≤ m.contents.length then
      some (.ok (m, readBytes m.contents i data.length, data.length))
    else none

/-- `MemoryBlock::write`: the `if self.read_only` branch in the source has an
empty body (its error return is commented out), so the write proceeds
regardless of the flag: convert the address (failure is `UnmappedAddress`),
then `contents[addr..addr + data.len()].copy_from_slice(data)`, which panics
(`none`) when the slice range exceeds the contents. -/
def MemoryBlock.write {Addr ι : Type} (conv : Addr → Option Nat) (m : MemoryBlock) (_now : ι)
    (addr : Addr) (data : List Nat) :
    Option (Except SimpleBusError (MemoryBlock × Nat)) :=
  match conv addr with
  | none => some (.error .UnmappedAddress)
  | some i =>
    if i + data.length ≤ m.contents.length then
      some (.ok ({ m with contents := listWrite m.contents i data }, data.length))
    else none

/-- The `BusAccess` implementation of `MemoryBlock`. -/
def memBus {Addr ι : Type} (conv : Addr → Option Nat) :
    BusOps MemoryBlock Addr ι SimpleBusError :=
  ⟨MemoryBlock.read conv, MemoryBlock.write conv⟩

/-- `BusAdapter::read` from `emulator-hal/src/bus.rs`: apply the stored
`translate` function to the incoming address, delegate to the inner bus, map
any error through the stored `map_err` function. -/
def busAdapterRead {σ AIn AOut ι ε ε2 : Type} (B : BusOps σ AOut ι ε)
    (translate : AIn → AOut) (map_err : ε → ε2) (s : σ) (now : ι) (addr : AIn)
    (data : List Nat) : Option (Except ε2 (σ × List Nat × Nat)) :=
  match B.read s now (translate addr) data with
  | none => none
  | some (.error e) => some (.error (map_err e))
  | some (.ok r) => some (.ok r)

/-- `BusAdapter::write` from `emulator-hal/src/bus.rs`. -/
def busAdapterWrite {σ AIn AOut ι ε ε2 : Type} (B : BusOps σ AOut ι ε)
    (translate : AIn → AOut) (map_err : ε → ε2) (s : σ) (now : ι) (addr : AIn)
    (data : List Nat) : Option (Except ε2 (σ × Nat)) :=
  match B.write s now (translate addr) data with
  | none => none
  | some (.error e) => some (.error (map_err e))
  | some (.ok r) => some (.ok r)

/-- The `BusAccess` implementation of the `bus.rs` `BusAdapter` as a bus. -/
def busAdapterOps {σ AIn AOut ι ε ε2 : Type} (B : BusOps σ AOut ι ε)
    (translate : AIn → AOut) (map_err : ε → ε2) : BusOps σ AIn ι ε2 :=
  ⟨busAdapterRead B translate map_err, busAdapterWrite B translate map_err⟩

/-- `BusAdapter::read` from `emulator-hal/src/adapter.rs`: the error mapping
is the `From`/`Into` conversion (`.map_err(|err| err.into())`), modelled by
the explicit function `intoE`. -/
def adapterRead {σ AIn AOut ι ε ε2 : Type} (B : BusOps σ AOut ι ε)
    (translate : AIn → AOut) (intoE : ε → ε2) (s : σ) (now : ι) (addr : AIn)
    (data : List Nat) : Option (Except ε2 (σ × List Nat × Nat)) :=
  match B.read s now (translate addr) data with
  | none => none
  | some (.error e) => some (.error (intoE e))
  | some (.ok r) => some (.ok r)

/-- `BusAdapter::write` from `emulator-hal/src/adapter.rs`. -/
def adapterWrite {σ AIn AOut ι ε ε2 : Type} (B : BusOps σ AOut ι ε)
    (translate : AIn → AOut) (intoE : ε → ε2) (s : σ) (now : ι) (addr : AIn)
    (data : List Nat) : Option (Except ε2 (σ × Nat)) :=
  match B.write s now (translate addr) data with
  | none => none
  | some (.error e) => some (.error (intoE e))
  | some (.ok r) => some (.ok r)

/-- `AutoBusAdapter::read` from `emulator-hal/src/adapter.rs`: the address
translation is the standing `FromAddress` conversion (`addr.into_address()`),
modelled by the explicit function `fromAddress`. -/
def autoAdapterRead {σ AIn AOut ι ε ε2 : Type} (B : BusOps σ AOut ι ε)
    (fromAddress : AIn → AOut) (intoE : ε → ε2) (s : σ) (now : ι) (addr : AIn)
    (data : List Nat) : Option (Except ε2 (σ × List Nat × Nat)) :=
  match B.read s now (fromAddress addr) data with
  | none => none
  | some (.error e) => some (.error (intoE e))
  | some (.ok r) => some (.ok r)

/-- `AutoBusAdapter::write` from `emulator-hal/src/adapter.rs`. -/
def autoAdapterWrite {σ AIn AOut ι ε ε2 : Type} (B : BusOps σ AOut ι ε)
    (fromAddress : AIn → AOut) (intoE : ε → ε2) (s : σ) (now : ι) (addr : AIn)
    (data : List Nat) : Option (Except ε2 (σ × Nat)) :=
  match B.write s now (fromAddress addr) data with
  | none => none
  | some (.error e) => some (.error (intoE e))
  | some (.ok r) => some (.ok r)

/-- `core::time::Duration`: whole seconds plus a nanosecond part below 10^9.
This is both the `Instant` implementation of `emulator-hal/src/time.rs` and
its own associated `Duration` type. -/
structure Duration where
  secs : Nat
  nanos : Nat
deriving DecidableEq, Repr

/-- `Duration::from_nanos`. -/
def Duration.fromNanos (n : Nat) : Duration :=
  ⟨n / 1000000000, n % 1000000000⟩

/-- Total length of a `Duration` in nanoseconds. -/
def Duration.totalNanos (d : Duration) : Nat :=
  d.secs * 1000000000 + d.nanos

/-- `Duration::checked_add`: add the u64 seconds (overflow is `None`), add
the nanosecond parts, and on a nanosecond carry add one more second (again
checking the u64 overflow). -/
def Duration.checkedAdd (d1 d2 : Duration) : Option Duration :=
  if d1.secs + d2.secs < 2 ^ 64 then
    if d1.nanos + d2.nanos < 1000000000 then
      some ⟨d1.secs + d2.secs, d1.nanos + d2.nanos⟩
    else if d1.secs + d2.secs + 1 < 2 ^ 64 then
      some ⟨d1.secs + d2.secs + 1, d1.nanos + d2.nanos - 1000000000⟩
    else none
  else none

/-- `<Duration as Add>::add = checked_add(rhs).expect(...)`: the u64-seconds
overflow panics in every build profile, modelled as `none`. -/
def Duration.add (d1 d2 : Duration) : Option Duration :=
  d1.checkedAdd d2

/-- `<Duration as Instant>::START = Duration::from_nanos(0)` from
`emulator-hal/src/time.rs`. -/
def Duration.START : Duration :=
  Duration.fromNanos 0

/-- `<Duration as Instant>::hertz_to_duration`:
`Duration::from_nanos(1_000_000_000 / hertz)`.  Rust integer division by zero
panics, modelled as `none`. -/
def Duration.hertzToDuration (hertz : Nat) : Option Duration :=
  if hertz = 0 then none else some (Duration.fromNanos (1000000000 / hertz))

/-- The test `Memory(Vec<u8>)` device of `emulator-hal/src/step.rs`: `read`
copies `contents[addr..addr + data.len()]` into the buffer with no bounds
check (a panic, `none`, when out of range). -/
def tmemRead {ι : Type} (m : List Nat) (_now : ι) (addr : Nat) (data : List Nat) :
    Option (Except SimpleBusError (List Nat × List Nat × Nat)) :=
  if addr + data.length ≤ m.length then
    some (.ok (m, readBytes m addr data.length, data.length))
  else none

/-- The test `Memory(Vec<u8>)` device's `write`. -/
def tmemWrite {ι : Type} (m : List Nat) (_now : ι) (addr : Nat) (data : List Nat) :
    Option (Except SimpleBusError (List Nat × Nat)) :=
  if addr + data.length ≤ m.length then
    some (.ok (listWrite m addr data, data.length))
  else none

/-- The `BusAccess` implementation of the test `Memory` device. -/
def tmemBus {ι : Type} : BusOps (List Nat) Nat ι SimpleBusError :=
  ⟨tmemRead, tmemWrite⟩

/-- A UTF-8 continuation byte (`0x80..=0xBF`). -/
def isCont (b : Nat) : Bool :=
  0x80 ≤ b && b ≤ 0xBF

/-- UTF-8 validity of a byte sequence, as checked by `str::from_utf8`. -/
def validUtf8 : List Nat → Bool
  | [] => true
  | b :: rest =>
    if b ≤ 0x7F then validUtf8 rest
    else if 0xC2 ≤ b && b ≤ 0xDF then
      match rest with
      | c1 :: rest2 => isCont c1 && validUtf8 rest2
      | [] => false
    else if b = 0xE0 then
      match rest with
      | c1 :: c2 :: rest2 => (0xA0 ≤ c1 && c1 ≤ 0xBF) && isCont c2 && validUtf8 rest2
      | _ => false
    else if (0xE1 ≤ b && b ≤ 0xEC) || b = 0xEE || b = 0xEF then
      match rest with
      | c1 :: c2 :: rest2 => isCont c1 && isCont c2 && validUtf8 rest2
      | _ => false
    else if b = 0xED then
      match rest with
      | c1 :: c2 :: rest2 => (0x80 ≤ c1 && c1 ≤ 0x9F) && isCont c2 && validUtf8 rest2
      | _ => false
    else if b = 0xF0 then
      match rest with
      | c1 :: c2 :: c3 :: rest2 =>
        (0x90 ≤ c1 && c1 ≤ 0xBF) && isCont c2 && isCont c3 && validUtf8 rest2
      | _ => false
    else if 0xF1 ≤ b && b ≤ 0xF3 then
      match rest with
      | c1 :: c2 :: c3 :: rest2 => isCont c1 && isCont c2 && isCont c3 && validUtf8 rest2
      | _ => false
    else if b = 0xF4 then
      match rest with
      | c1 :: c2 :: c3 :: rest2 =>
        (0x80 ≤ c1 && c1 ≤ 0x8F) && isCont c2 && isCont c3 && validUtf8 rest2
      | _ => false
    else false

/-- The error type of the test `Output` device in `emulator-hal/src/step.rs`. -/
inductive OutputError where
  | Utf8Error
deriving DecidableEq, Repr

/-- The test `Output` device's `read`: returns `Ok(0)` without touching the
buffer. -/
def outputRead {ι : Type} (_s : Unit) (_now : ι) (_addr : Nat) (data : List Nat) :
    Option (Except OutputError (Unit × List Nat × Nat)) :=
  some (.ok ((), data, 0))

/-- The test `Output` device's `write`: validates the bytes as UTF-8 (the
printing side effect is outside the model) and returns the full length. -/
def outputWrite {ι : Type} (_s : Unit) (_now : ι) (_addr : Nat) (data : List Nat) :
    Option (Except OutputError (Unit × Nat)) :=
  if validUtf8 data then some (.ok ((), data.length))
  else some (.error .Utf8Error)

/-- The `BusAccess` implementation of the test `Output` device. -/
def outputBus {ι : Type} : BusOps Unit Nat ι OutputError :=
  ⟨outputRead, outputWrite⟩

/-- The test error enum of `emulator-hal/src/step.rs`
(`enum Error { BusError }`). -/
inductive TestError where
  | busError
deriving DecidableEq, Repr

/-- The `FixedBus` of `emulator-hal/src/step.rs`: an `Output` and a `Memory`
routed by address. -/
structure FixedBus where
  output : Unit
  memory : List Nat
deriving DecidableEq, Repr

/-- `FixedBus::read`: addresses in `0..0x1_0000` go to the memory at
`addr as u32 % 0x1_0000`; all others go to the output at `addr as u16`;
either device error becomes `Error::BusError`. -/
def FixedBus.read {ι : Type} (b : FixedBus) (now : ι) (addr : Nat) (data : List Nat) :
    Option (Except TestError (FixedBus × List Nat × Nat)) :=
  if addr < 0x10000 then
    match tmemRead b.memory now (addr % 2 ^ 32 % 0x10000) data with
    | none => none
    | some (.error _) => some (.error .busError)
    | some (.ok (m', buf, n)) => some (.ok ({ b with memory := m' }, buf, n))
  else
    match outputRead b.output now (addr % 2 ^ 16) data with
    | none => none
    | some (.error _) => some (.error .busError)
    | some (.ok (o', buf, n)) => some (.ok ({ b with output := o' }, buf, n))

/-- `FixedBus::write`. -/
def FixedBus.write {ι : Type} (b : FixedBus) (now : ι) (addr : Nat) (data : List Nat) :
    Option (Except TestError (FixedBus × Nat)) :=
  if addr < 0x10000 then
    match tmemWrite b.memory now (addr % 2 ^ 32 % 0x10000) data with
    | none => none
    | some (.error _) => some (.error .busError)
    | some (.ok (m', n)) => some (.ok ({ b with memory := m' }, n))
  else
    match outputWrite b.output now (addr % 2 ^ 16) data with
    | none => none
    | some (.error _) => some (.error .busError)
    | some (.ok (o', n)) => some (.ok ({ b with output := o' }, n))

/-- The `BusAccess` implementation of `FixedBus`. -/
def fixedBus {ι : Type} : BusOps FixedBus Nat ι TestError :=
  ⟨FixedBus.read, FixedBus.write⟩

/-- `DynamicBus::read` from `emulator-hal/src/step.rs`: scan the device list
in declaration order, forward to the first device whose `Range` contains the
address (mapping its error with `|_| Error::BusError`), and return `Ok(0)`
with everything untouched when no range matches. -/
def dynRead {σ ι : Type} (B : BusOps σ Nat ι TestError) :
    List ((Nat × Nat) × σ) → ι → Nat → List Nat →
    Option (Except TestError (List ((Nat × Nat) × σ) × List Nat × Nat))
  | [], _, _, data => some (.ok ([], data, 0))
  | (rng, d) :: rest, now, addr, data =>
    if rng.1 ≤ addr ∧ addr < rng.2 then
      match B.read d now addr data with
      | none => none
      | some (.error _) => some (.error .busError)
      | some (.ok (d', buf, n)) => some (.ok ((rng, d') :: rest, buf, n))
    else
      match dynRead B rest now addr data with
      | none => none
      | some (.error e) => some (.error e)
      | some (.ok (rest', buf, n)) => some (.ok ((rng, d) :: rest', buf, n))

/-- `DynamicBus::write` from `emulator-hal/src/step.rs`. -/
def dynWrite {σ ι : Type} (B : BusOps σ Nat ι TestError) :
    List ((Nat × Nat) × σ) → ι → Nat → List Nat →
    Option (Except TestError (List ((Nat × Nat) × σ) × Nat))
  | [], _, _, _ => some (.ok ([], 0))
  | (rng, d) :: rest, now, addr, data =>
    if rng.1 ≤ addr ∧ addr < rng.2 then
      match B.write d now addr data with
      | none => none
      | some (.error _) => some (.error .busError)
      | some (.ok (d', n)) => some (.ok ((rng, d') :: rest, n))
    else
      match dynWrite B rest now addr data with
      | none => none
      | some (.error e) => some (.error e)
      | some (.ok (rest', n)) => some (.ok ((rng, d) :: rest', n))

/-- The `BusAccess` implementation of `DynamicBus`. -/
def dynBus {σ ι : Type} (B : BusOps σ Nat ι TestError) :
    BusOps (List ((Nat × Nat) × σ)) Nat ι TestError :=
  ⟨dynRead B, dynWrite B⟩

/-- The accumulator `Cpu` of `emulator-hal/src/step.rs`. -/
structure Cpu where
  pc : Nat
  sum : Nat
  running : Bool
deriving DecidableEq, Repr

/-- `Cpu::default()`. -/
def Cpu.default : Cpu :=
  ⟨0, 0, false⟩

/-- `Cpu::is_running`. -/
def Cpu.isRunning (c : Cpu) : Bool :=
  c.running

/-- `Cpu::reset`: set running, fetch the initial program counter as a
big-endian u32 from address 0 (errors converted by the `From` impl modelled
as `intoE`). -/
def Cpu.reset {σ ε : Type} (B : BusOps σ Nat Duration ε) (intoE : ε → TestError) (cpu : Cpu)
    (now : Duration) (bus : σ) : Option (Except TestError (Cpu × σ)) :=
  match readBeu32 B bus now 0 with
  | none => none
  | some (.error e) => some (.error (intoE e))
  | some (.ok (bus', v)) => some (.ok ({ cpu with running := true, pc := v }, bus'))

/-- `Cpu::step`: when running, fetch a big-endian u32 at `pc`, advance `pc`
by 4 (u64 arithmetic), halt on 0 and otherwise accumulate (u32 arithmetic);
return `now + Duration::from_nanos(100)` as the next instant, the addition
panicking (`none`) on u64-seconds overflow. -/
def Cpu.step {σ ε : Type} (B : BusOps σ Nat Duration ε) (intoE : ε → TestError) (cpu : Cpu)
    (now : Duration) (bus : σ) : Option (Except TestError (Cpu × σ × Duration)) :=
  if cpu.running then
    match readBeu32 B bus now cpu.pc with
    | none => none
    | some (.error e) => some (.error (intoE e))
    | some (.ok (bus', value)) =>
      match now.add (Duration.fromNanos 100) with
      | none => none
      | some next =>
        if value = 0 then
          some (.ok ({ cpu with pc := (cpu.pc + 4) % 2 ^ 64, running := false }, bus',
            next))
        else
          some (.ok
            ({ cpu with pc := (cpu.pc + 4) % 2 ^ 64, sum := (cpu.sum + value) % 2 ^ 32 },
              bus', next))
  else
    match now.add (Duration.fromNanos 100) with
    | none => none
    | some next => some (.ok (cpu, bus, next))

/-- The driver loop of `test_static_system`: `while cpu.is_running()` call
`cpu.step(Duration::START, bus)?`.  `fuel` bounds the number of iterations;
running out of fuel while the cpu still runs is `none`. -/
def runLoop {σ ε : Type} (B : BusOps σ Nat Duration ε) (intoE : ε → TestError) :
    Nat → Cpu → σ → Option (Except TestError (Cpu × σ))
  | 0, cpu, bus => if cpu.isRunning then none else some (.ok (cpu, bus))
  | fuel + 1, cpu, bus =>
    if cpu.isRunning then
      match Cpu.step B intoE cpu Duration.START bus with
      | none => none
      | some (.error e) => some (.error e)
      | some (.ok (cpu', bus', _)) => runLoop B intoE fuel cpu' bus'
    else some (.ok (cpu, bus))

/-- One setup write of `test_static_system`: `write_beu32(Duration::START,
addr, v).unwrap()` on the memory device (`unwrap` of an error is a panic). -/
def writeVal (m : List Nat) (addr v : Nat) : Option (List Nat) :=
  match writeBeu32 (tmemBus : BusOps (List Nat) Nat Duration SimpleBusError) m
      Duration.START addr v with
  | some (.ok m') => some m'
  | _ => none

/-- The setup loop of `test_static_system`: for `i in 0..count`, write the
big-endian u32 `1 + i` at `0x100 + 4 * i`. -/
def setupVals : Nat → List Nat → Option (List Nat)
  | 0, m => some m
  | i + 1, m =>
    match setupVals i m with
    | none => none
    | some m' => writeVal m' (0x100 + 4 * i) (1 + i)

/-- The whole `test_static_system` scenario: a 1024-byte zeroed memory, the
base address `0x100` written at address 0, the values `1..=100` written from
`0x100`, a default `Cpu` reset at `Duration::START`, then the driver loop
with enough fuel for the 101 steps the program needs. -/
def scenario : Option (Except TestError (Cpu × FixedBus)) :=
  match writeVal (List.replicate 1024 0) 0 0x100 with
  | none => none
  | some m0 =>
    match setupVals 100 m0 with
    | none => none
    | some m1 =>
      match Cpu.reset fixedBus id Cpu.default Duration.START ⟨(), m1⟩ with
      | none => none
      | some (.error e) => some (.error e)
      | some (.ok (cpu, bus)) => runLoop fixedBus id 101 cpu bus

/-- The observable outcome of the scenario: the final accumulator and
running flag, when the run ends without panic or error. -/
def scenarioResult : Option (Nat × Bool) :=
  match scenario with
  | some (.ok (cpu, _)) => some (cpu.sum, cpu.running)
  | _ => none

/-- Sequence a derived write accessor and a derived read accessor on the same
device, keeping only the value read back. -/
def writeThenRead {σ ε : Type} (wr : σ → Option (Except ε σ))
    (rd : σ → Option (Except ε (σ × Nat))) (s : σ) : Option (Except ε Nat) :=
  match wr s with
  | none => none
  | some (.error e) => some (.error e)
  | some (.ok s') =>
    match rd s' with
    | none => none
    | some (.error e) => some (.error e)
    | some (.ok (_, v)) => some (.ok v)

theorem toLeBytes_length (n v : Nat) : (toLeBytes n v).length = n := by
  induction n generalizing v with
  | zero => simp [toLeBytes]
  | succ n ih => simp [toLeBytes, ih]

theorem toBeBytes_length (n v : Nat) : (toBeBytes n v).length = n := by
  simp [toBeBytes, toLeBytes_length]

theorem fromLe_toLe (n v : Nat) : fromLeBytes (toLeBytes n v) = v % 256 ^ n := by
  induction n generalizing v with
  | zero => simp [toLeBytes, fromLeBytes, Nat.mod_one]
  | succ n ih =>
    rw [toLeBytes, fromLeBytes, ih, pow_succ' 256 n]
    exact Nat.mod_mul.symm

theorem fromBe_toBe (n v : Nat) : fromBeBytes (toBeBytes n v) = v % 256 ^ n := by
  rw [fromBeBytes, toBeBytes, List.reverse_reverse, fromLe_toLe]

theorem listWrite_length (c : List Nat) (i : Nat) (d : List Nat)
    (h : i + d.length ≤ c.length) : (listWrite c i d).length = c.length := by
  simp only [listWrite, List.length_append, List.length_take, List.length_drop]
  omega

theorem readBytes_listWrite (c : List Nat) (i : Nat) (d : List Nat)
    (h : i + d.length ≤ c.length) : readBytes (listWrite c i d) i d.length = d := by
  unfold readBytes listWrite
  rw [List.append_assoc, List.drop_left' (by rw [List.length_take]; omega),
    List.take_left' rfl]

theorem mem_write_read {Addr ι : Type} (conv : Addr → Option Nat) (m : MemoryBlock)
    (now : ι) (addr : Addr) (i : Nat) (d : List Nat) (h1 : conv addr = some i)
    (h2 : i + d.length ≤ m.contents.length) :
    MemoryBlock.write conv m now addr d =
      some (.ok ({ m with contents := listWrite m.contents i d }, d.length)) ∧
    MemoryBlock.read conv { m with contents := listWrite m.contents i d } now addr
        (List.replicate d.length 0) =
      some (.ok ({ m with contents := listWrite m.contents i d }, d, d.length)) := by
  have hl := listWrite_length m.contents i d h2
  have hr := readBytes_listWrite m.contents i d h2
  refine ⟨?_, ?_⟩
  · simp [MemoryBlock.write, h1, h2]
  · simp [MemoryBlock.read, h1, hl, hr, h2]

/-- C2: on a non-read-only `MemoryBlock` whose bounds contain the whole
access, writing a value of width W in byte order O at an address and then
reading width W in byte order O at the same address returns the original
value, for W in {8,16,32,64} and O in {little, big} (`write_u8`/`read_u8`,
`write_beu16`/`read_beu16`, `write_leu16`/`read_leu16`, and so on). -/
theorem memoryBlock_roundtrip {Addr ι : Type} (conv : Addr → Option Nat) (m : MemoryBlock)
    (now : ι) (addr : Addr) (i v8 v16 v32 v64 : Nat) (_hro : m.read_only = false)
    (hc : conv addr = some i) (hb : i + 8 ≤ m.contents.length) (_h8 : v8 < 2 ^ 8)
    (h16 : v16 < 2 ^ 16) (h32 : v32 < 2 ^ 32) (h64 : v64 < 2 ^ 64) :
    writeThenRead (fun s => writeU8 (memBus conv) s now addr v8)
      (fun s => readU8 (memBus conv) s now addr) m = some (.ok v8) ∧
    writeThenRead (fun s => writeBeu16 (memBus conv) s now addr v16)
      (fun s => readBeu16 (memBus conv) s now addr) m = some (.ok v16) ∧
    writeThenRead (fun s => writeLeu16 (memBus conv) s now addr v16)
      (fun s => readLeu16 (memBus conv) s now addr) m = some (.ok v16) ∧
    writeThenRead (fun s => writeBeu32 (memBus conv) s now addr v32)
      (fun s => readBeu32 (memBus conv) s now addr) m = some (.ok v32) ∧
    writeThenRead (fun s => writeLeu32 (memBus conv) s now addr v32)
      (fun s => readLeu32 (memBus conv) s now addr) m = some (.ok v32) ∧
    writeThenRead (fun s => writeBeu64 (memBus conv) s now addr v64)
      (fun s => readBeu64 (memBus conv) s now addr) m = some (.ok v64) ∧
    writeThenRead (fun s => writeLeu64 (memBus conv) s now addr v64)
      (fun s => readLeu64 (memBus conv) s now addr) m = some (.ok v64) := by
  refine ⟨?_, ?_, ?_, ?_, ?_, ?_, ?_⟩
  · have h2 : i + ([v8] : List Nat).length ≤ m.contents.length := by
      simp only [List.length_singleton]; omega
    obtain ⟨hw, hr⟩ := mem_write_read conv m now addr i [v8] hc h2
    rw [show ([v8] : List Nat).length = 1 from rfl] at hw hr
    simp only [writeThenRead, writeU8, readU8, memBus, hw, hr]
    simp
  · have h2 : i + (toBeBytes 2 v16).length ≤ m.contents.length := by
      rw [toBeBytes_length]; omega
    obtain ⟨hw, hr⟩ := mem_write_read conv m now addr i (toBeBytes 2 v16) hc h2
    rw [toBeBytes_length] at hw hr
    simp only [writeThenRead, writeBeu16, readBeu16, memBus, hw, hr]
    rw [fromBe_toBe]
    congr 2
    rw [show (256 : Nat) ^ 2 = 2 ^ 16 by norm_num]
    exact Nat.mod_eq_of_lt h16
  · have h2 : i + (toLeBytes 2 v16).length ≤ m.contents.length := by
      rw [toLeBytes_length]; omega
    obtain ⟨hw, hr⟩ := mem_write_read conv m now addr i (toLeBytes 2 v16) hc h2
    rw [toLeBytes_length] at hw hr
    simp only [writeThenRead, writeLeu16, readLeu16, memBus, hw, hr]
    rw [fromLe_toLe]
    congr 2
    rw [show (256 : Nat) ^ 2 = 2 ^ 16 by norm_num]
    exact Nat.mod_eq_of_lt h16
  · have h2 : i + (toBeBytes 4 v32).length ≤ m.contents.length := by
      rw [toBeBytes_length]; omega
    obtain ⟨hw, hr⟩ := mem_write_read conv m now addr i (toBeBytes 4 v32) hc h2
    rw [toBeBytes_length] at hw hr
    simp only [writeThenRead, writeBeu32, readBeu32, memBus, hw, hr]
    rw [fromBe_toBe]
    congr 2
    rw [show (256 : Nat) ^ 4 = 2 ^ 32 by norm_num]
    exact Nat.mod_eq_of_lt h32
  · have h2 : i + (toLeBytes 4 v32).length ≤ m.contents.length := by
      rw [toLeBytes_length]; omega
    obtain ⟨hw, hr⟩ := mem_write_read conv m now addr i (toLeBytes 4 v32) hc h2
    rw [toLeBytes_length] at hw hr
    simp only [writeThenRead, writeLeu32, readLeu32, memBus, hw, hr]
    rw [fromLe_toLe]
    congr 2
    rw [show (256 : Nat) ^ 4 = 2 ^ 32 by norm_num]
    exact Nat.mod_eq_of_lt h32
  · have h2 : i + (toBeBytes 8 v64).length ≤ m.contents.length := by
      rw [toBeBytes_length]; omega
    obtain ⟨hw, hr⟩ := mem_write_read conv m now addr i (toBeBytes 8 v64) hc h2
    rw [toBeBytes_length] at hw hr
    simp only [writeThenRead, writeBeu64, readBeu64, memBus, hw, hr]
    rw [fromBe_toBe]
    congr 2
    rw [show (256 : Nat) ^ 8 = 2 ^ 64 by norm_num]
    exact Nat.mod_eq_of_lt h64
  · have h2 : i + (toLeBytes 8 v64).length ≤ m.contents.length := by
      rw [toLeBytes_length]; omega
    obtain ⟨hw, hr⟩ := mem_write_read conv m now addr i (toLeBytes 8 v64) hc h2
    rw [toLeBytes_length] at hw hr
    simp only [writeThenRead, writeLeu64, readLeu64, memBus, hw, hr]
    rw [fromLe_toLe]
    congr 2
    rw [show (256 : Nat) ^ 8 = 2 ^ 64 by norm_num]
    exact Nat.mod_eq_of_lt h64

/-- C2 witness: the round-trip law evaluated on a concrete 8-byte memory
block at address 0 with concrete values of each width. -/
theorem memoryBlock_roundtrip_witness :
    writeThenRead (fun s => writeU8 (memBus (fun a => some a)) s 0 0 0xAB)
      (fun s => readU8 (memBus (fun a => some a)) s 0 0)
      ⟨false, List.replicate 8 0⟩ = some (.ok 0xAB) ∧
    writeThenRead (fun s => writeBeu16 (memBus (fun a => some a)) s 0 0 0xABCD)
      (fun s => readBeu16 (memBus (fun a => some a)) s 0 0)
      ⟨false, List.replicate 8 0⟩ = some (.ok 0xABCD) ∧
    writeThenRead (fun s => writeLeu16 (memBus (fun a => some a)) s 0 0 0xABCD)
      (fun s => readLeu16 (memBus (fun a => some a)) s 0 0)
      ⟨false, List.replicate 8 0⟩ = some (.ok 0xABCD) ∧
    writeThenRead (fun s => writeBeu32 (memBus (fun a => some a)) s 0 0 0x12345678)
      (fun s => readBeu32 (memBus (fun a => some a)) s 0 0)
      ⟨false, List.replicate 8 0⟩ = some (.ok 0x12345678) ∧
    writeThenRead (fun s => writeLeu32 (memBus (fun a => some a)) s 0 0 0x12345678)
      (fun s => readLeu32 (memBus (fun a => some a)) s 0 0)
      ⟨false, List.replicate 8 0⟩ = some (.ok 0x12345678) ∧
    writeThenRead (fun s => writeBeu64 (memBus (fun a => some a)) s 0 0 0x123456789ABCDEF0)
      (fun s => readBeu64 (memBus (fun a => some a)) s 0 0)
      ⟨false, List.replicate 8 0⟩ = some (.ok 0x123456789ABCDEF0) ∧
    writeThenRead (fun s => writeLeu64 (memBus (fun a => some a)) s 0 0 0x123456789ABCDEF0)
      (fun s => readLeu64 (memBus (fun a => some a)) s 0 0)
      ⟨false, List.replicate 8 0⟩ = some (.ok 0x123456789ABCDEF0) :=
  memoryBlock_roundtrip (fun a : Nat => some a)
    ⟨false, List.replicate 8 0⟩ (0 : Nat) 0 0 0xAB 0xABCD 0x12345678 0x123456789ABCDEF0
    rfl rfl (by simp) (by norm_num) (by norm_num) (by norm_num) (by norm_num)

/-- C1 (code-bug evidence): on a block made read-only with `read_only()`, a
write still mutates the backing contents and reports the full byte count —
the read-only guard in `MemoryBlock::write` has an empty body, its error
return being commented out — contradicting the documented intent of
`read_only()` and the spec's zero-byte no-mutation contract. -/
theorem readOnly_write_mutates :
    MemoryBlock.write (fun a => some a) (MemoryBlock.setReadOnly ⟨false, [0]⟩) (0 : Nat) 0
      [0xAB] = some (.ok (⟨true, [0xAB]⟩, 1)) := by
  rfl

/-- C4 counterexample: at address 5 of a 1-byte block (conversion succeeds,
access out of range), read and write panic (`none`, a slice index out of
range) instead of returning the unmapped-address error. -/
theorem outOfRange_read_panics :
    MemoryBlock.read (fun a => some a) ⟨false, [0]⟩ (0 : Nat) 5 [0] = none ∧
    MemoryBlock.write (fun a => some a) ⟨false, [0]⟩ (0 : Nat) 5 [0xAB] = none ∧
    (none : Option (Except SimpleBusError (MemoryBlock × List Nat × Nat))) ≠
      some (.error .UnmappedAddress) := by
  exact ⟨rfl, rfl, by simp⟩

/-- C4 (amended): when the address-to-index conversion fails, both read and
write return the unmapped-address error before touching the contents or the
buffer; when the conversion succeeds but the access extends past the end of
the contents, both read and write panic (slice index out of range) rather
than returning an error. -/
theorem memoryBlock_bounds {Addr ι : Type} (conv : Addr → Option Nat) (m : MemoryBlock)
    (now : ι) (addr : Addr) (data : List Nat) :
    (conv addr = none →
      MemoryBlock.read conv m now addr data = some (.error .UnmappedAddress) ∧
      MemoryBlock.write conv m now addr data = some (.error .UnmappedAddress)) ∧
    (∀ i, conv addr = some i → m.contents.length < i + data.length →
      MemoryBlock.read conv m now addr data = none ∧
      MemoryBlock.write conv m now addr data = none) := by
  refine ⟨fun hc => ⟨?_, ?_⟩, fun i hc hlt => ⟨?_, ?_⟩⟩
  · simp [MemoryBlock.read, hc]
  · simp [MemoryBlock.write, hc]
  · simp [MemoryBlock.read, hc]
    omega
  · simp [MemoryBlock.write, hc]
    omega

/-- C4 witness: the amended bounds behavior evaluated on a failing
conversion and on a concrete out-of-range access. -/
theorem memoryBlock_bounds_witness :
    MemoryBlock.read (fun _ : Nat => (none : Option Nat)) ⟨false, [0]⟩ (0 : Nat) 0 [0] =
      some (.error .UnmappedAddress) ∧
    MemoryBlock.read (fun a => some a) ⟨false, [0]⟩ (0 : Nat) 7 [0] = none :=
  ⟨((memoryBlock_bounds (fun _ : Nat => none) ⟨false, [0]⟩ (0 : Nat) 0 [0]).1 rfl).1,
   ((memoryBlock_bounds (fun a => some a) ⟨false, [0]⟩ (0 : Nat) 7 [0]).2 7 rfl
      (by simp)).1⟩

/-- C10: `resize` never fails and changes only the length of the contents —
the first `min(new_size, old length)` bytes are kept, every added byte is
zero, the final length is `new_size`, and the read-only flag is untouched;
`read_only()` changes only the flag and never the contents. -/
theorem resize_frame (m : MemoryBlock) (n : Nat) :
    (m.resize n).read_only = m.read_only ∧
    (m.resize n).contents = m.contents.take n ++ List.replicate (n - m.contents.length) 0 ∧
    (m.resize n).contents.length = n ∧
    m.setReadOnly.contents = m.contents ∧
    m.setReadOnly.read_only = true := by
  refine ⟨rfl, ?_, ?_, rfl, rfl⟩
  · by_cases h : n ≤ m.contents.length
    · simp [MemoryBlock.resize, h, Nat.sub_eq_zero_of_le h]
    · simp [MemoryBlock.resize, h,
        List.take_of_length_le (by omega : m.contents.length ≤ n)]
  · by_cases h : n ≤ m.contents.length
    · simp only [MemoryBlock.resize, if_pos h, List.length_take]
      omega
    · simp only [MemoryBlock.resize, if_neg h, List.length_append,
        List.length_replicate]
      omega

theorem totalNanos_fromNanos (x : Nat) : (Duration.fromNanos x).totalNanos = x := by
  simp only [Duration.fromNanos, Duration.totalNanos]
  rw [Nat.mul_comm]
  exact Nat.div_add_mod x 1000000000

theorem totalNanos_add (d1 d2 d : Duration) (hadd : d1.add d2 = some d) :
    d.totalNanos = d1.totalNanos + d2.totalNanos := by
  simp only [Duration.add, Duration.checkedAdd] at hadd
  split_ifs at hadd with h1 h2 h3
  · simp only [Option.some.injEq] at hadd
    subst hadd
    simp only [Duration.totalNanos]
    omega
  · simp only [Option.some.injEq] at hadd
    subst hadd
    simp only [Duration.totalNanos]
    omega

/-- C8: for every `hertz >= 1`, the `Duration` implementation of the
`Instant` capability maps the frequency to a duration of exactly
`floor(1_000_000_000 / hertz)` nanoseconds, `START` is the zero instant, and
whenever adding the period to an instant succeeds (`Duration` addition
panics on u64-seconds overflow), the next wake time it computes is exactly
one period later in total nanoseconds. -/
theorem duration_hertz_period (h : Nat) (hh : 1 ≤ h) :
    Duration.hertzToDuration h = some (Duration.fromNanos (1000000000 / h)) ∧
    (Duration.fromNanos (1000000000 / h)).totalNanos = 1000000000 / h ∧
    Duration.START.totalNanos = 0 ∧
    ∀ now next : Duration,
      now.add (Duration.fromNanos (1000000000 / h)) = some next →
      next.totalNanos = now.totalNanos + 1000000000 / h := by
  refine ⟨?_, totalNanos_fromNanos _, rfl, fun now next hn => ?_⟩
  · simp only [Duration.hertzToDuration, if_neg (by omega : ¬h = 0)]
  · rw [totalNanos_add now _ next hn, totalNanos_fromNanos]

/-- C8 witness: the period of a 4 Hz clock is 250 milliseconds in
nanoseconds, and adding it to the concrete instant 5 ns succeeds and lands
exactly one period later. -/
theorem duration_hertz_period_witness :
    Duration.hertzToDuration 4 = some (Duration.fromNanos (1000000000 / 4)) ∧
    (Duration.fromNanos (1000000000 / 4)).totalNanos = 1000000000 / 4 ∧
    Duration.START.totalNanos = 0 ∧
    (⟨0, 250000005⟩ : Duration).totalNanos =
      (Duration.fromNanos 5).totalNanos + 1000000000 / 4 :=
  ⟨(duration_hertz_period 4 (by norm_num)).1,
   (duration_hertz_period 4 (by norm_num)).2.1,
   (duration_hertz_period 4 (by norm_num)).2.2.1,
   (duration_hertz_period 4 (by norm_num)).2.2.2 (Duration.fromNanos 5)
     ⟨0, 250000005⟩ rfl⟩

/-- C6: a big-endian 32-bit write of 0x12345678 at address 0 of a memory
device stores the bytes [0x12, 0x34, 0x56, 0x78] and a raw 4-byte read
returns exactly that sequence; the little-endian write stores
[0x78, 0x56, 0x34, 0x12]; and the derived 32-bit write accessors delegate to
the raw write primitive with exactly the most-significant-byte-first
(respectively least-significant-byte-first) encoding of the value, for any
device, with no device-specific knowledge. -/
theorem endian_byte_sequences :
    writeBeu32 (memBus (fun a => some a)) ⟨false, List.replicate 4 0⟩ (0 : Nat) 0
      0x12345678 = some (.ok ⟨false, [0x12, 0x34, 0x56, 0x78]⟩) ∧
    MemoryBlock.read (fun a => some a) ⟨false, [0x12, 0x34, 0x56, 0x78]⟩ (0 : Nat) 0
      (List.replicate 4 0) =
      some (.ok (⟨false, [0x12, 0x34, 0x56, 0x78]⟩, [0x12, 0x34, 0x56, 0x78], 4)) ∧
    writeLeu32 (memBus (fun a => some a)) ⟨false, List.replicate 4 0⟩ (0 : Nat) 0
      0x12345678 = some (.ok ⟨false, [0x78, 0x56, 0x34, 0x12]⟩) ∧
    MemoryBlock.read (fun a => some a) ⟨false, [0x78, 0x56, 0x34, 0x12]⟩ (0 : Nat) 0
      (List.replicate 4 0) =
      some (.ok (⟨false, [0x78, 0x56, 0x34, 0x12]⟩, [0x78, 0x56, 0x34, 0x12], 4)) ∧
    toBeBytes 4 0x12345678 = [0x12, 0x34, 0x56, 0x78] ∧
    toLeBytes 4 0x12345678 = [0x78, 0x56, 0x34, 0x12] ∧
    (∀ (σ Addr ι ε : Type) (B : BusOps σ Addr ι ε) (s : σ) (now : ι) (addr : Addr)
      (v : Nat),
      writeBeu32 B s now addr v =
        (match B.write s now addr (toBeBytes 4 v) with
         | none => none
         | some (.error e) => some (.error e)
         | some (.ok (s', _)) => some (.ok s')) ∧
      writeLeu32 B s now addr v =
        (match B.write s now addr (toLeBytes 4 v) with
         | none => none
         | some (.error e) => some (.error e)
         | some (.ok (s', _)) => some (.ok s'))) :=
  ⟨rfl, rfl, rfl, rfl, rfl, rfl, fun _ _ _ _ _ _ _ _ _ => ⟨rfl, rfl⟩⟩

/-- C5: a read or write through any of the three bus adapters (the `bus.rs`
`BusAdapter` with a `map_err` function, the `adapter.rs` `BusAdapter` with a
`From` conversion, and the `AutoBusAdapter` with a `FromAddress`
translation) at outer address x has exactly the effect of the same operation
on the inner device at `translate(x)`: on success it returns the inner
state, buffer, and transferred-byte count unaltered; on failure it returns
exactly the inner error passed through the error conversion; a panic
propagates; no error becomes a success and nothing is retried. -/
theorem adapter_refines {σ AIn AOut ι ε ε2 : Type} (B : BusOps σ AOut ι ε)
    (translate : AIn → AOut) (mapErr : ε → ε2) (s : σ) (now : ι) (x : AIn)
    (data : List Nat) :
    (∀ s' buf n, B.read s now (translate x) data = some (.ok (s', buf, n)) →
      busAdapterRead B translate mapErr s now x data = some (.ok (s', buf, n)) ∧
      adapterRead B translate mapErr s now x data = some (.ok (s', buf, n)) ∧
      autoAdapterRead B translate mapErr s now x data = some (.ok (s', buf, n))) ∧
    (∀ e, B.read s now (translate x) data = some (.error e) →
      busAdapterRead B translate mapErr s now x data = some (.error (mapErr e)) ∧
      adapterRead B translate mapErr s now x data = some (.error (mapErr e)) ∧
      autoAdapterRead B translate mapErr s now x data = some (.error (mapErr e))) ∧
    (B.read s now (translate x) data = none →
      busAdapterRead B translate mapErr s now x data = none ∧
      adapterRead B translate mapErr s now x data = none ∧
      autoAdapterRead B translate mapErr s now x data = none) ∧
    (∀ s' n, B.write s now (translate x) data = some (.ok (s', n)) →
      busAdapterWrite B translate mapErr s now x data = some (.ok (s', n)) ∧
      adapterWrite B translate mapErr s now x data = some (.ok (s', n)) ∧
      autoAdapterWrite B translate mapErr s now x data = some (.ok (s', n))) ∧
    (∀ e, B.write s now (translate x) data = some (.error e) →
      busAdapterWrite B translate mapErr s now x data = some (.error (mapErr e)) ∧
      adapterWrite B translate mapErr s now x data = some (.error (mapErr e)) ∧
      autoAdapterWrite B translate mapErr s now x data = some (.error (mapErr e))) ∧
    (B.write s now (translate x) data = none →
      busAdapterWrite B translate mapErr s now x data = none ∧
      adapterWrite B translate mapErr s now x data = none ∧
      autoAdapterWrite B translate mapErr s now x data = none) := by
  refine ⟨fun s' buf n h => ?_, fun e h => ?_, fun h => ?_, fun s' n h => ?_,
    fun e h => ?_, fun h => ?_⟩ <;>
    simp [busAdapterRead, busAdapterWrite, adapterRead, adapterWrite,
      autoAdapterRead, autoAdapterWrite, h]

/-- C5 witness: adapting a concrete two-byte memory block with the
translation x+1, a read through each adapter at outer address 0 returns
the byte at inner address 1; with a failing address conversion inside, the
inner unmapped-address error comes back through the error mapping. -/
theorem adapter_refines_witness :
    busAdapterRead (memBus (fun a => some a)) (fun x => x + 1)
      (fun _ : SimpleBusError => TestError.busError) ⟨false, [7, 9]⟩ (0 : Nat) 0 [0] =
      some (.ok (⟨false, [7, 9]⟩, [9], 1)) ∧
    adapterRead (memBus (fun a => some a)) (fun x => x + 1)
      (fun _ : SimpleBusError => TestError.busError) ⟨false, [7, 9]⟩ (0 : Nat) 0 [0] =
      some (.ok (⟨false, [7, 9]⟩, [9], 1)) ∧
    autoAdapterRead (memBus (fun a => some a)) (fun x => x + 1)
      (fun _ : SimpleBusError => TestError.busError) ⟨false, [7, 9]⟩ (0 : Nat) 0 [0] =
      some (.ok (⟨false, [7, 9]⟩, [9], 1)) ∧
    busAdapterWrite (memBus (fun _ : Nat => (none : Option Nat))) (fun x => x + 1)
      (fun _ : SimpleBusError => TestError.busError) ⟨false, [7, 9]⟩ (0 : Nat) 0 [5] =
      some (.error (TestError.busError)) := by
  refine ⟨?_, ?_, ?_, ?_⟩
  · exact ((adapter_refines (memBus (fun a => some a)) (fun x => x + 1)
      (fun _ => TestError.busError) ⟨false, [7, 9]⟩ (0 : Nat) 0 [0]).1
      ⟨false, [7, 9]⟩ [9] 1 rfl).1
  · exact ((adapter_refines (memBus (fun a => some a)) (fun x => x + 1)
      (fun _ => TestError.busError) ⟨false, [7, 9]⟩ (0 : Nat) 0 [0]).1
      ⟨false, [7, 9]⟩ [9] 1 rfl).2.1
  · exact ((adapter_refines (memBus (fun a => some a)) (fun x => x + 1)
      (fun _ => TestError.busError) ⟨false, [7, 9]⟩ (0 : Nat) 0 [0]).1
      ⟨false, [7, 9]⟩ [9] 1 rfl).2.2
  · exact ((adapter_refines (memBus (fun _ : Nat => (none : Option Nat)))
      (fun x => x + 1) (fun _ => TestError.busError) ⟨false, [7, 9]⟩ (0 : Nat) 0
      [5]).2.2.2.2.1 SimpleBusError.UnmappedAddress rfl).1

/-- C7: a composite `DynamicBus` built from an ordered list of
(address range, device) pairs forwards a read or write to the first device
in declaration order whose range contains the address, returning that
device's result (its state updated in place, the error collapsing to the
single test error value); when no range contains the address it returns
success with zero bytes transferred and everything untouched. -/
theorem dynamicBus_first_match {σ ι : Type} (B : BusOps σ Nat ι TestError) (now : ι)
    (addr : Nat) (data : List Nat) :
    (∀ devs : List ((Nat × Nat) × σ),
      (∀ p ∈ devs, ¬(p.1.1 ≤ addr ∧ addr < p.1.2)) →
      dynRead B devs now addr data = some (.ok (devs, data, 0)) ∧
      dynWrite B devs now addr data = some (.ok (devs, 0))) ∧
    (∀ (pre : List ((Nat × Nat) × σ)) (rng : Nat × Nat) (d : σ)
      (post : List ((Nat × Nat) × σ)),
      (∀ p ∈ pre, ¬(p.1.1 ≤ addr ∧ addr < p.1.2)) →
      (rng.1 ≤ addr ∧ addr < rng.2) →
      dynRead B (pre ++ (rng, d) :: post) now addr data =
        (match B.read d now addr data with
         | none => none
         | some (.error _) => some (.error .busError)
         | some (.ok (d', buf, n)) => some (.ok (pre ++ (rng, d') :: post, buf, n))) ∧
      dynWrite B (pre ++ (rng, d) :: post) now addr data =
        (match B.write d now addr data with
         | none => none
         | some (.error _) => some (.error .busError)
         | some (.ok (d', n)) => some (.ok (pre ++ (rng, d') :: post, n)))) := by
  constructor
  · intro devs hnone
    induction devs with
    | nil => exact ⟨rfl, rfl⟩
    | cons p rest ih =>
      obtain ⟨prng, pd⟩ := p
      have hp := hnone (prng, pd) (List.mem_cons_self _ _)
      obtain ⟨ihr, ihw⟩ := ih (fun q hq => hnone q (List.mem_cons_of_mem _ hq))
      constructor
      · simp [dynRead, hp, ihr]
      · simp [dynWrite, hp, ihw]
  · intro pre rng d post hpre hin
    induction pre with
    | nil =>
      constructor
      · cases h : B.read d now addr data with
        | none => simp [dynRead, hin, h]
        | some r =>
          cases r with
          | error e => simp [dynRead, hin, h]
          | ok r => obtain ⟨d', buf, n⟩ := r; simp [dynRead, hin, h]
      · cases h : B.write d now addr data with
        | none => simp [dynWrite, hin, h]
        | some r =>
          cases r with
          | error e => simp [dynWrite, hin, h]
          | ok r => obtain ⟨d', n⟩ := r; simp [dynWrite, hin, h]
    | cons p pre ih =>
      obtain ⟨prng, pd⟩ := p
      have hp := hpre (prng, pd) (List.mem_cons_self _ _)
      obtain ⟨ihr, ihw⟩ := ih (fun q hq => hpre q (List.mem_cons_of_mem _ hq))
      constructor
      · cases h : B.read d now addr data with
        | none => simp [dynRead, hp, ihr, h]
        | some r =>
          cases r with
          | error e => simp [dynRead, hp, ihr, h]
          | ok r => obtain ⟨d', buf, n⟩ := r; simp [dynRead, hp, ihr, h]
      · cases h : B.write d now addr data with
        | none => simp [dynWrite, hp, ihw, h]
        | some r =>
          cases r with
          | error e => simp [dynWrite, hp, ihw, h]
          | ok r => obtain ⟨d', n⟩ := r; simp [dynWrite, hp, ihw, h]

/-- C7 witness: with two adapted memory devices on ranges 0..4 and 4..8, a
read at address 5 is served by the second device (returning its byte at
index 5), and a read at the unmapped address 9 returns zero bytes with the
buffer and devices untouched. -/
theorem dynamicBus_first_match_witness :
    dynRead (busAdapterOps (memBus (fun a => some a)) (fun a => a)
        (fun _ : SimpleBusError => TestError.busError))
      [((0, 4), ⟨false, [1, 2, 3, 4]⟩),
       ((4, 8), ⟨false, [10, 11, 12, 13, 14, 15, 16, 17]⟩)] (0 : Nat) 5 [0] =
      some (.ok ([((0, 4), ⟨false, [1, 2, 3, 4]⟩),
        ((4, 8), ⟨false, [10, 11, 12, 13, 14, 15, 16, 17]⟩)], [15], 1)) ∧
    dynRead (busAdapterOps (memBus (fun a => some a)) (fun a => a)
        (fun _ : SimpleBusError => TestError.busError))
      [((0, 4), ⟨false, [1, 2, 3, 4]⟩)] (0 : Nat) 9 [0] =
      some (.ok ([((0, 4), ⟨false, [1, 2, 3, 4]⟩)], [0], 0)) := by
  constructor
  · exact (((dynamicBus_first_match
      (busAdapterOps (memBus (fun a => some a)) (fun a => a)
        (fun _ => TestError.busError)) (0 : Nat) 5 [0]).2
      [((0, 4), ⟨false, [1, 2, 3, 4]⟩)] (4, 8)
      ⟨false, [10, 11, 12, 13, 14, 15, 16, 17]⟩ []
      (by intro p hp; rw [List.mem_singleton] at hp; subst hp; simp)
      (by constructor <;> norm_num)).1).trans rfl
  · exact ((dynamicBus_first_match
      (busAdapterOps (memBus (fun a => some a)) (fun a => a)
        (fun _ => TestError.busError)) (0 : Nat) 9 [0]).1
      [((0, 4), ⟨false, [1, 2, 3, 4]⟩)]
      (by intro p hp; rw [List.mem_singleton] at hp; subst hp; simp)).1

/-- C9: every derived accessor discards the transferred-byte count of the
raw primitive — whenever the raw read or write returns Ok(n), for any n
including 0, the derived accessor returns Ok, the reads parsing whatever the
buffer holds after the call.  In particular on the empty composite bus,
whose raw read and write return Ok(0) without touching the buffer, every
derived read returns Ok(0) (the zero-initialized stack buffer parsed as a
value) and every derived write returns Ok(()). -/
theorem accessors_discard_count {σ Addr ι ε : Type} (B : BusOps σ Addr ι ε) (s : σ)
    (now : ι) (addr : Addr) :
    (∀ s' buf n, B.read s now addr (List.replicate 1 0) = some (.ok (s', buf, n)) →
      readU8 B s now addr = some (.ok (s', buf.getD 0 0))) ∧
    (∀ s' buf n, B.read s now addr (List.replicate 2 0) = some (.ok (s', buf, n)) →
      readBeu16 B s now addr = some (.ok (s', fromBeBytes buf)) ∧
      readLeu16 B s now addr = some (.ok (s', fromLeBytes buf))) ∧
    (∀ s' buf n, B.read s now addr (List.replicate 4 0) = some (.ok (s', buf, n)) →
      readBeu32 B s now addr = some (.ok (s', fromBeBytes buf)) ∧
      readLeu32 B s now addr = some (.ok (s', fromLeBytes buf))) ∧
    (∀ s' buf n, B.read s now addr (List.replicate 8 0) = some (.ok (s', buf, n)) →
      readBeu64 B s now addr = some (.ok (s', fromBeBytes buf)) ∧
      readLeu64 B s now addr = some (.ok (s', fromLeBytes buf))) ∧
    (∀ s' n v, B.write s now addr [v] = some (.ok (s', n)) →
      writeU8 B s now addr v = some (.ok s')) ∧
    (∀ s' n v, B.write s now addr (toBeBytes 2 v) = some (.ok (s', n)) →
      writeBeu16 B s now addr v = some (.ok s')) ∧
    (∀ s' n v, B.write s now addr (toLeBytes 2 v) = some (.ok (s', n)) →
      writeLeu16 B s now addr v = some (.ok s')) ∧
    (∀ s' n v, B.write s now addr (toBeBytes 4 v) = some (.ok (s', n)) →
      writeBeu32 B s now addr v = some (.ok s')) ∧
    (∀ s' n v, B.write s now addr (toLeBytes 4 v) = some (.ok (s', n)) →
      writeLeu32 B s now addr v = some (.ok s')) ∧
    (∀ s' n v, B.write s now addr (toBeBytes 8 v) = some (.ok (s', n)) →
      writeBeu64 B s now addr v = some (.ok s')) ∧
    (∀ s' n v, B.write s now addr (toLeBytes 8 v) = some (.ok (s', n)) →
      writeLeu64 B s now addr v = some (.ok s')) ∧
    (∀ (σ2 : Type) (B2 : BusOps σ2 Nat Nat TestError) (now2 addr2 v : Nat)
      (order : ByteOrder),
      readU8 (dynBus B2) [] now2 addr2 = some (.ok ([], 0)) ∧
      readBeu16 (dynBus B2) [] now2 addr2 = some (.ok ([], 0)) ∧
      readLeu16 (dynBus B2) [] now2 addr2 = some (.ok ([], 0)) ∧
      readBeu32 (dynBus B2) [] now2 addr2 = some (.ok ([], 0)) ∧
      readLeu32 (dynBus B2) [] now2 addr2 = some (.ok ([], 0)) ∧
      readBeu64 (dynBus B2) [] now2 addr2 = some (.ok ([], 0)) ∧
      readLeu64 (dynBus B2) [] now2 addr2 = some (.ok ([], 0)) ∧
      readU16 (dynBus B2) order [] now2 addr2 = some (.ok ([], 0)) ∧
      readU32 (dynBus B2) order [] now2 addr2 = some (.ok ([], 0)) ∧
      readU64 (dynBus B2) order [] now2 addr2 = some (.ok ([], 0)) ∧
      writeU8 (dynBus B2) [] now2 addr2 v = some (.ok []) ∧
      writeBeu16 (dynBus B2) [] now2 addr2 v = some (.ok []) ∧
      writeLeu16 (dynBus B2) [] now2 addr2 v = some (.ok []) ∧
      writeBeu32 (dynBus B2) [] now2 addr2 v = some (.ok []) ∧
      writeLeu32 (dynBus B2) [] now2 addr2 v = some (.ok []) ∧
      writeBeu64 (dynBus B2) [] now2 addr2 v = some (.ok []) ∧
      writeLeu64 (dynBus B2) [] now2 addr2 v = some (.ok []) ∧
      writeU16 (dynBus B2) order [] now2 addr2 v = some (.ok []) ∧
      writeU32 (dynBus B2) order [] now2 addr2 v = some (.ok []) ∧
      writeU64 (dynBus B2) order [] now2 addr2 v = some (.ok [])) := by
  refine ⟨fun s' buf n h => ?_, fun s' buf n h => ⟨?_, ?_⟩, fun s' buf n h => ⟨?_, ?_⟩,
    fun s' buf n h => ⟨?_, ?_⟩, fun s' n v h => ?_, fun s' n v h => ?_,
    fun s' n v h => ?_, fun s' n v h => ?_, fun s' n v h => ?_, fun s' n v h => ?_,
    fun s' n v h => ?_, fun σ2 B2 now2 addr2 v order => ?_⟩
  · simp only [List.replicate] at h
    simp [readU8, h]
  · simp only [List.replicate] at h
    simp [readBeu16, h]
  · simp only [List.replicate] at h
    simp [readLeu16, h]
  · simp only [List.replicate] at h
    simp [readBeu32, h]
  · simp only [List.replicate] at h
    simp [readLeu32, h]
  · simp only [List.replicate] at h
    simp [readBeu64, h]
  · simp only [List.replicate] at h
    simp [readLeu64, h]
  · simp [writeU8, h]
  · simp [writeBeu16, h]
  · simp [writeLeu16, h]
  · simp [writeBeu32, h]
  · simp [writeLeu32, h]
  · simp [writeBeu64, h]
  · simp [writeLeu64, h]
  · cases order <;>
      exact ⟨rfl, rfl, rfl, rfl, rfl, rfl, rfl, rfl, rfl, rfl, rfl, rfl, rfl, rfl,
        rfl, rfl, rfl, rfl, rfl, rfl⟩

/-- C9 witness: the count-discarding law applied to the `Output` device,
whose raw read returns Ok(0) without touching the buffer: the derived u8 and
big-endian u16 reads return Ok(0). -/
theorem accessors_discard_count_witness :
    readU8 (outputBus : BusOps Unit Nat Nat OutputError) () 0 0 = some (.ok ((), 0)) ∧
    readBeu16 (outputBus : BusOps Unit Nat Nat OutputError) () 0 0 = some (.ok ((), 0)) :=
  ⟨(accessors_discard_count (outputBus : BusOps Unit Nat Nat OutputError) () 0 0).1 ()
      (List.replicate 1 0) 0 rfl,
   ((accessors_discard_count (outputBus : BusOps Unit Nat Nat OutputError) () 0 0).2.1 ()
      (List.replicate 2 0) 0 rfl).1⟩

set_option maxRecDepth 1000000

set_option maxHeartbeats 4000000

/-- C3: in the static test system — a 1024-byte memory pre-loaded at base
address 0x100 with the 32-bit big-endian values 1..100 followed by a 0
terminator, the word at address 0 holding that base — the accumulator Cpu,
reset at `Duration::START` and stepped while `is_running()` holds, halts
within 101 steps with its running sum equal to 5050. -/
theorem accumulator_scenario : scenarioResult = some (5050, false) := by
  rfl

end Emu
